import Mathlib

/-!
Shallow embedding of `src/sandbox/manager.py` (Agent Studio sandbox manager).

Pure state-passing translation of the Python module: `time.time()` becomes an
explicit `now : Nat` argument (seconds), the Python dict `self.sessions`
becomes an association list with dict semantics (assignment replaces the
entry for an existing key, `del` removes it), and all external effects (the
`InteractiveSandboxSession` constructor with its `__enter__`, its `run`, its
`__exit__`, and the fallback `subprocess.run`) are supplied as explicit
outcome parameters, since their behaviour lives outside this repository.
Environment handles are identified by a fresh counter `next_env`, so that
"a brand-new environment" is expressible: the constructor consumes one fresh
identifier per successfully constructed `InteractiveSandboxSession` object.
-/

namespace Sandbox

/-- IDLE_TIMEOUT configuration constant (manager.py line 32): 30 minutes. -/
def IDLE_TIMEOUT : Nat := 30 * 60

/-- EXECUTION_TIMEOUT configuration constant (manager.py line 33). -/
def EXECUTION_TIMEOUT : Nat := 60

/-- The reaper's fixed sleep interval, from `await asyncio.sleep(60)` in
`_cleanup_loop` (manager.py line 86). -/
def CLEANUP_INTERVAL : Nat := 60

/-- DEFAULT_LIBRARIES (manager.py lines 34-42). -/
def DEFAULT_LIBRARIES : List String :=
  ["pandas", "numpy", "matplotlib", "pypdf", "pdfplumber", "openpyxl", "requests"]

/-- The `WorkspaceSession` dataclass (manager.py lines 45-57).  `session` is
the optional environment handle (`Optional[object]`), identified here by the
`Nat` drawn from `next_env` when the handle was constructed; `none` models
Python `None`. -/
structure WorkspaceSession where
  workspace_id : String
  session : Option Nat
  created_at : Nat
  last_used : Nat
  deriving Repr, DecidableEq

/-- `WorkspaceSession.is_expired` (manager.py lines 53-54):
`time.time() - self.last_used > IDLE_TIMEOUT`.  Translated with truncated
`Nat` subtraction, which agrees with the float comparison whenever
`last_used ≤ now` and is false (like the negative float difference) when
`now < last_used`. -/
def is_expired (ws : WorkspaceSession) (now : Nat) : Bool :=
  decide (now - ws.last_used > IDLE_TIMEOUT)

/-- `WorkspaceSession.touch` (manager.py lines 56-57). -/
def touch (ws : WorkspaceSession) (now : Nat) : WorkspaceSession :=
  { ws with last_used := now }

/-- One artifact entry `{"type": "image", "data": img}` of the result dict
(manager.py lines 201-204). -/
structure Artifact where
  type : String
  data : String
  deriving Repr, DecidableEq

/-- The result dict shape returned by `SandboxManager.execute` (and the
`ExecuteResponse` model, manager.py lines 234-238). -/
structure ExecutionResult where
  success : Bool
  stdout : String
  stderr : String
  artifacts : List Artifact
  deriving Repr, DecidableEq

/-- The value returned by a successful `ws.session.run(code, timeout)` call:
exit code, optional captured streams, optional image list (manager.py lines
194-204 read `exit_code`, `stdout`, `stderr`, `images`; the `or` coalescing
of falsy values is modelled by `Option.getD`, which agrees because Python's
`x or ""` maps both `None` and `""` to `""`, and `xs or []` maps both `None`
and `[]` to `[]`). -/
structure RunResult where
  exit_code : Int
  stdout : Option String
  stderr : Option String
  images : Option (List String)
  deriving Repr, DecidableEq

/-- Outcome of the per-library warm-up body (manager.py lines 129-134): the
`import` succeeds, or it raises and the unprotected `!pip install` run
succeeds, or it raises and the install run raises too. -/
inductive LibStep where
  | importOk
  | importFailInstallOk
  | importFailInstallFail (msg : String)
  deriving Repr, DecidableEq

/-- Outcome of `InteractiveSandboxSession(...)` construction plus
`__enter__` (manager.py lines 120-126): either the constructor or enter
raises, or a live environment object exists. -/
inductive ProvisionOutcome where
  | createFail (msg : String)
  | created
  deriving Repr, DecidableEq

/-- Outcome of `ws.session.run(code, timeout=timeout)` on the sandboxed path
(manager.py line 194): a returned `RunResult`, or a raised exception
(timeouts on this path surface as exceptions caught at line 206). -/
inductive RunOutcome where
  | ok (r : RunResult)
  | exn (msg : String)
  deriving Repr, DecidableEq

/-- Outcome of the fallback `subprocess.run` call (manager.py lines
165-191): completion with a return code and captured streams, a
`subprocess.TimeoutExpired`, or any other exception. -/
inductive SubprocessOutcome where
  | completed (returncode : Int) (stdout stderr : String)
  | timedOut
  | exn (msg : String)
  deriving Repr, DecidableEq

/-- The mutable state of a `SandboxManager` (manager.py lines 63-65):
`sessions` is the dict, `cleanup_task` records whether `_cleanup_task` holds
a live task, and `next_env` is the fresh-identifier counter for environment
handles. -/
structure ManagerState where
  sessions : List (String × WorkspaceSession)
  cleanup_task : Bool
  next_env : Nat
  deriving Repr, DecidableEq

/-- The state of a freshly constructed `SandboxManager.__init__`. -/
def initState : ManagerState := ⟨[], false, 0⟩

/-- Dict lookup `self.sessions[workspace_id]` guarded by
`workspace_id in self.sessions`. -/
def lookupWS : List (String × WorkspaceSession) → String → Option WorkspaceSession
  | [], _ => none
  | (k, v) :: rest, w => if k = w then some v else lookupWS rest w

/-- Dict assignment `self.sessions[workspace_id] = ws`: replaces the entry
for an existing key, otherwise appends. -/
def insertWS : List (String × WorkspaceSession) → String → WorkspaceSession →
    List (String × WorkspaceSession)
  | [], w, v => [(w, v)]
  | (k, u) :: rest, w, v =>
    if k = w then (w, v) :: rest else (k, u) :: insertWS rest w v

/-- Dict deletion `del self.sessions[workspace_id]`. -/
def eraseWS (l : List (String × WorkspaceSession)) (w : String) :
    List (String × WorkspaceSession) :=
  l.filter (fun p => !(p.1 == w))

/-- The warm-up loop body (manager.py lines 128-134): iterate
`DEFAULT_LIBRARIES`; a successful `import` moves on; a failed `import` runs
`!pip install -q lib`, which is NOT wrapped in its own handler, so an
install failure raises out of the loop (to the outer handler at line 137).
Returns the exception outcome together with the list of libraries for which
an installation was attempted. -/
def runWarmup (f : String → LibStep) : List String → Except String Unit × List String
  | [] => (Except.ok (), [])
  | lib :: rest =>
    match f lib with
    | LibStep.importOk => runWarmup f rest
    | LibStep.importFailInstallOk =>
      let p := runWarmup f rest
      (p.1, lib :: p.2)
    | LibStep.importFailInstallFail msg => (Except.error msg, [lib])

/-- `SandboxManager.get_or_create_session` (manager.py lines 106-142).
`sandbox_available` is the module flag `LLM_SANDBOX_AVAILABLE`; `prov` and
`f` supply the external outcomes of environment construction and of the
warm-up imports/installs.  An existing entry is touched and returned; a
fresh one provisions (consuming one `next_env` identifier when the
constructor succeeds), runs the warm-up (an escaping install failure is
caught by the outer handler, which resets `ws.session` to `None`), and is
registered unconditionally before being returned. -/
def get_or_create_session (st : ManagerState) (workspace_id : String) (now : Nat)
    (sandbox_available : Bool) (prov : ProvisionOutcome) (f : String → LibStep) :
    WorkspaceSession × ManagerState :=
  match lookupWS st.sessions workspace_id with
  | some ws =>
    let ws' := touch ws now
    (ws', { st with sessions := insertWS st.sessions workspace_id ws' })
  | none =>
    if sandbox_available then
      match prov with
      | ProvisionOutcome.createFail _ =>
        let ws : WorkspaceSession := ⟨workspace_id, none, now, now⟩
        (ws, { st with sessions := insertWS st.sessions workspace_id ws })
      | ProvisionOutcome.created =>
        let handle : Option Nat :=
          match (runWarmup f DEFAULT_LIBRARIES).1 with
          | Except.ok _ => some st.next_env
          | Except.error _ => none
        let ws : WorkspaceSession := ⟨workspace_id, handle, now, now⟩
        (ws, { st with sessions := insertWS st.sessions workspace_id ws,
                       next_env := st.next_env + 1 })
    else
      let ws : WorkspaceSession := ⟨workspace_id, none, now, now⟩
      (ws, { st with sessions := insertWS st.sessions workspace_id ws })

/-- `SandboxManager.execute` (manager.py lines 144-213).  Resolves the
session, then either takes the fallback subprocess path (handle absent,
lines 153-191) or the sandboxed path (lines 193-213); every external
outcome is translated into a fully populated result dict, mirroring the
`try`/`except` structure of the source. -/
def execute (st : ManagerState) (workspace_id code : String) (timeout : Nat)
    (now : Nat) (sandbox_available : Bool) (prov : ProvisionOutcome)
    (f : String → LibStep) (run_outcome : RunOutcome)
    (fallback : SubprocessOutcome) : ExecutionResult × ManagerState :=
  let p := get_or_create_session st workspace_id now sandbox_available prov f
  match p.1.session with
  | none =>
    match fallback with
    | SubprocessOutcome.completed rc out err => (⟨rc == 0, out, err, []⟩, p.2)
    | SubprocessOutcome.timedOut =>
      (⟨false, "", "Execution timed out after " ++ toString timeout ++ " seconds", []⟩, p.2)
    | SubprocessOutcome.exn msg => (⟨false, "", msg, []⟩, p.2)
  | some _ =>
    match run_outcome with
    | RunOutcome.ok r =>
      let ws' := touch p.1 now
      (⟨r.exit_code == 0, r.stdout.getD "", r.stderr.getD "",
        (r.images.getD []).map (fun img => ⟨"image", img⟩)⟩,
       { p.2 with sessions := insertWS p.2.sessions workspace_id ws' })
    | RunOutcome.exn msg => (⟨false, "", msg, []⟩, p.2)

/-- `SandboxManager._close_session` (manager.py lines 98-104): if the handle
is present, call `__exit__`, swallowing any exception and logging it.  The
returned value is the logged error text, `none` when nothing went wrong or
no handle was present; no failure escapes. -/
def close_session (ws : WorkspaceSession) (close_outcome : Except String Unit) :
    Option String :=
  match ws.session with
  | none => none
  | some _ =>
    match close_outcome with
    | Except.ok _ => none
    | Except.error e => some e

/-- `SandboxManager.destroy_session` (manager.py lines 215-220): when the
key is present, close the session (errors swallowed into the returned log)
and delete the record; otherwise do nothing.  Total: no error return. -/
def destroy_session (st : ManagerState) (workspace_id : String)
    (close_outcome : Except String Unit) : ManagerState × Option String :=
  match lookupWS st.sessions workspace_id with
  | some ws =>
    ({ st with sessions := eraseWS st.sessions workspace_id },
     close_session ws close_outcome)
  | none => (st, none)

/-- One tick of `SandboxManager._cleanup_loop` after its sleep (manager.py
lines 88-96): collect the expired ids, close and delete each.  The net
registry effect is to drop exactly the expired entries. -/
def cleanup_tick (st : ManagerState) (now : Nat) : ManagerState :=
  { st with sessions := st.sessions.filter (fun q => !(is_expired q.2 now)) }

/-- `SandboxManager.start` (manager.py lines 67-70): spawn the cleanup task. -/
def start (st : ManagerState) : ManagerState :=
  { st with cleanup_task := true }

/-- `SandboxManager.stop` (manager.py lines 72-81): cancel the cleanup task
if one exists (`if self._cleanup_task:` — safe when `start` never ran, the
field is then `None`), close every remaining session in registry order
(teardown errors swallowed into the per-session logs), then clear the dict. -/
def stop (st : ManagerState) (close_out : String → Except String Unit) :
    ManagerState × List (String × Option String) :=
  ({ st with sessions := [], cleanup_task := false },
   st.sessions.map (fun q => (q.1, close_session q.2 (close_out q.1))))

/-! Unfolding equations for the operations, used throughout the proofs. -/

theorem goc_found {st : ManagerState} {w : String} {ws : WorkspaceSession}
    (now : Nat) (avail : Bool) (prov : ProvisionOutcome) (f : String → LibStep)
    (hl : lookupWS st.sessions w = some ws) :
    get_or_create_session st w now avail prov f =
      (touch ws now, { st with sessions := insertWS st.sessions w (touch ws now) }) := by
  simp only [get_or_create_session, hl]

theorem goc_unavailable {st : ManagerState} {w : String} (now : Nat)
    (prov : ProvisionOutcome) (f : String → LibStep)
    (hl : lookupWS st.sessions w = none) :
    get_or_create_session st w now false prov f =
      (⟨w, none, now, now⟩,
       { st with sessions := insertWS st.sessions w ⟨w, none, now, now⟩ }) := by
  simp only [get_or_create_session, hl]
  rfl

theorem goc_createFail {st : ManagerState} {w : String} (now : Nat) (m : String)
    (f : String → LibStep) (hl : lookupWS st.sessions w = none) :
    get_or_create_session st w now true (ProvisionOutcome.createFail m) f =
      (⟨w, none, now, now⟩,
       { st with sessions := insertWS st.sessions w ⟨w, none, now, now⟩ }) := by
  simp only [get_or_create_session, hl]
  rfl

theorem goc_created_ok {st : ManagerState} {w : String} (now : Nat)
    {f : String → LibStep} (hl : lookupWS st.sessions w = none)
    (hw : (runWarmup f DEFAULT_LIBRARIES).1 = Except.ok ()) :
    get_or_create_session st w now true ProvisionOutcome.created f =
      (⟨w, some st.next_env, now, now⟩,
       { st with sessions := insertWS st.sessions w ⟨w, some st.next_env, now, now⟩,
                 next_env := st.next_env + 1 }) := by
  simp [get_or_create_session, hl, hw]

theorem goc_created_err {st : ManagerState} {w : String} (now : Nat)
    {f : String → LibStep} {m : String} (hl : lookupWS st.sessions w = none)
    (hw : (runWarmup f DEFAULT_LIBRARIES).1 = Except.error m) :
    get_or_create_session st w now true ProvisionOutcome.created f =
      (⟨w, none, now, now⟩,
       { st with sessions := insertWS st.sessions w ⟨w, none, now, now⟩,
                 next_env := st.next_env + 1 }) := by
  simp [get_or_create_session, hl, hw]

theorem execute_handle_none {st : ManagerState} {w : String} (c : String)
    (t now : Nat) {avail : Bool} {prov : ProvisionOutcome} {f : String → LibStep}
    (ro : RunOutcome) (fb : SubprocessOutcome)
    (hs : (get_or_create_session st w now avail prov f).1.session = none) :
    execute st w c t now avail prov f ro fb =
      (match fb with
       | SubprocessOutcome.completed rc out err =>
         (⟨rc == 0, out, err, []⟩, (get_or_create_session st w now avail prov f).2)
       | SubprocessOutcome.timedOut =>
         (⟨false, "", "Execution timed out after " ++ toString t ++ " seconds", []⟩,
          (get_or_create_session st w now avail prov f).2)
       | SubprocessOutcome.exn msg =>
         (⟨false, "", msg, []⟩, (get_or_create_session st w now avail prov f).2)) := by
  simp only [execute, hs]

theorem execute_handle_some {st : ManagerState} {w : String} (c : String)
    (t now : Nat) {avail : Bool} {prov : ProvisionOutcome} {f : String → LibStep}
    (ro : RunOutcome) (fb : SubprocessOutcome) {env : Nat}
    (hs : (get_or_create_session st w now avail prov f).1.session = some env) :
    execute st w c t now avail prov f ro fb =
      (match ro with
       | RunOutcome.ok r =>
         (⟨r.exit_code == 0, r.stdout.getD "", r.stderr.getD "",
           (r.images.getD []).map (fun img => ⟨"image", img⟩)⟩,
          { (get_or_create_session st w now avail prov f).2 with
            sessions := insertWS (get_or_create_session st w now avail prov f).2.sessions
              w (touch (get_or_create_session st w now avail prov f).1 now) })
       | RunOutcome.exn msg =>
         (⟨false, "", msg, []⟩, (get_or_create_session st w now avail prov f).2)) := by
  simp only [execute, hs]

/-! Association-list lemmas for the dict embedding. -/

/-- Key list of the session dict. -/
def keys (l : List (String × WorkspaceSession)) : List String := l.map Prod.fst

theorem mem_insertWS {l : List (String × WorkspaceSession)} {w : String}
    {v : WorkspaceSession} {q : String × WorkspaceSession}
    (h : q ∈ insertWS l w v) : q = (w, v) ∨ q ∈ l := by
  induction l with
  | nil => simpa [insertWS] using h
  | cons a t ih =>
    obtain ⟨k, u⟩ := a
    by_cases hk : k = w
    · simp only [insertWS, if_pos hk, List.mem_cons] at h
      rcases h with h | h
      · exact Or.inl h
      · exact Or.inr (List.mem_cons_of_mem _ h)
    · simp only [insertWS, if_neg hk, List.mem_cons] at h
      rcases h with h | h
      · exact Or.inr (by simp [h])
      · rcases ih h with h2 | h2
        · exact Or.inl h2
        · exact Or.inr (List.mem_cons_of_mem _ h2)

theorem mem_keys_insertWS {l : List (String × WorkspaceSession)} {w x : String}
    {v : WorkspaceSession} :
    x ∈ keys (insertWS l w v) ↔ x = w ∨ x ∈ keys l := by
  induction l with
  | nil => simp [insertWS, keys]
  | cons a t ih =>
    obtain ⟨k, u⟩ := a
    by_cases hk : k = w
    · subst hk
      simp [insertWS, keys]
    · simp only [insertWS, if_neg hk, keys, List.map_cons, List.mem_cons] at ih ⊢
      tauto

theorem nodup_keys_insertWS {l : List (String × WorkspaceSession)} {w : String}
    {v : WorkspaceSession} (h : (keys l).Nodup) :
    (keys (insertWS l w v)).Nodup := by
  induction l with
  | nil => simp [insertWS, keys]
  | cons a t ih =>
    obtain ⟨k, u⟩ := a
    simp only [keys, List.map_cons, List.nodup_cons] at h
    by_cases hk : k = w
    · subst hk
      have hrw : insertWS ((k, u) :: t) k v = (k, v) :: t := by
        simp [insertWS]
      rw [hrw]
      simp only [keys, List.map_cons, List.nodup_cons]
      exact h
    · simp only [insertWS, if_neg hk, keys, List.map_cons, List.nodup_cons]
      refine ⟨?_, ih h.2⟩
      intro hmem
      rcases mem_keys_insertWS.1 hmem with h1 | h1
      · exact hk h1
      · exact h.1 h1

theorem lookupWS_insertWS_self (l : List (String × WorkspaceSession)) (w : String)
    (v : WorkspaceSession) : lookupWS (insertWS l w v) w = some v := by
  induction l with
  | nil => simp [insertWS, lookupWS]
  | cons a t ih =>
    obtain ⟨k, u⟩ := a
    by_cases hk : k = w
    · simp [insertWS, if_pos hk, lookupWS]
    · simp [insertWS, if_neg hk, lookupWS, hk, ih]

theorem lookupWS_insertWS_other (l : List (String × WorkspaceSession)) {w w2 : String}
    (v : WorkspaceSession) (h : w2 ≠ w) :
    lookupWS (insertWS l w v) w2 = lookupWS l w2 := by
  induction l with
  | nil => simp [insertWS, lookupWS, Ne.symm h]
  | cons a t ih =>
    obtain ⟨k, u⟩ := a
    by_cases hk : k = w
    · subst hk
      simp [insertWS, lookupWS, Ne.symm h]
    · simp [insertWS, if_neg hk, lookupWS, ih]

theorem lookupWS_mem {l : List (String × WorkspaceSession)} {w : String}
    {v : WorkspaceSession} (h : lookupWS l w = some v) : (w, v) ∈ l := by
  induction l with
  | nil => simp [lookupWS] at h
  | cons a t ih =>
    obtain ⟨k, u⟩ := a
    by_cases hk : k = w
    · subst hk
      have hrw : lookupWS ((k, u) :: t) k = some u := by
        simp [lookupWS]
      rw [hrw] at h
      injection h with h
      subst h
      exact List.mem_cons_self _ _
    · simp only [lookupWS, if_neg hk] at h
      exact List.mem_cons_of_mem _ (ih h)

theorem lookupWS_eq_none_of_forall {l : List (String × WorkspaceSession)} {w : String}
    (h : ∀ q ∈ l, q.1 ≠ w) : lookupWS l w = none := by
  induction l with
  | nil => rfl
  | cons a t ih =>
    obtain ⟨k, u⟩ := a
    have hk : k ≠ w := h (k, u) (List.mem_cons_self _ _)
    simp only [lookupWS, if_neg hk]
    exact ih (fun q hq => h q (List.mem_cons_of_mem _ hq))

theorem lookupWS_eraseWS_self (l : List (String × WorkspaceSession)) (w : String) :
    lookupWS (eraseWS l w) w = none := by
  apply lookupWS_eq_none_of_forall
  intro q hq
  have hp := List.of_mem_filter hq
  simpa using hp

theorem eq_of_mem_nodup_keys {l : List (String × WorkspaceSession)}
    {p q : String × WorkspaceSession} (hn : (keys l).Nodup)
    (hp : p ∈ l) (hq : q ∈ l) (hk : p.1 = q.1) : p = q := by
  induction l with
  | nil => simp at hp
  | cons a t ih =>
    simp only [keys, List.map_cons, List.nodup_cons] at hn
    rcases List.mem_cons.1 hp with hp1 | hp1 <;> rcases List.mem_cons.1 hq with hq1 | hq1
    · rw [hp1, hq1]
    · exfalso
      apply hn.1
      rw [← hp1, hk]
      exact List.mem_map_of_mem Prod.fst hq1
    · exfalso
      apply hn.1
      rw [← hq1, ← hk]
      exact List.mem_map_of_mem Prod.fst hp1
    · exact ih hn.2 hp1 hq1

theorem lookupWS_filter_none {l : List (String × WorkspaceSession)} {w : String}
    {v : WorkspaceSession} (pred : String × WorkspaceSession → Bool)
    (hn : (keys l).Nodup) (hl : lookupWS l w = some v)
    (hp : pred (w, v) = false) : lookupWS (l.filter pred) w = none := by
  apply lookupWS_eq_none_of_forall
  intro q hq hq1
  have hqmem := List.mem_of_mem_filter hq
  have hqpred := List.of_mem_filter hq
  have hwv := lookupWS_mem hl
  have : q = (w, v) := eq_of_mem_nodup_keys hn hqmem hwv hq1
  rw [this, hp] at hqpred
  exact Bool.false_ne_true hqpred

theorem nodup_keys_filter {l : List (String × WorkspaceSession)}
    (pred : String × WorkspaceSession → Bool) (h : (keys l).Nodup) :
    (keys (l.filter pred)).Nodup :=
  List.Nodup.sublist ((List.filter_sublist l).map Prod.fst) h

/-! Registry invariant and reachable states. -/

/-- Every environment identifier stored in the registry was drawn from the
fresh counter, so it is below `next_env`. -/
def EnvBound (st : ManagerState) : Prop :=
  ∀ q ∈ st.sessions, ∀ e, q.2.session = some e → e < st.next_env

/-- Registry invariant: the dict keys are duplicate-free and all stored
environment identifiers are below the fresh counter. -/
def Inv (st : ManagerState) : Prop :=
  (keys st.sessions).Nodup ∧ EnvBound st

theorem goc_sessions_eq (st : ManagerState) (w : String) (now : Nat) (avail : Bool)
    (prov : ProvisionOutcome) (f : String → LibStep) :
    (get_or_create_session st w now avail prov f).2.sessions =
      insertWS st.sessions w (get_or_create_session st w now avail prov f).1 := by
  cases hl : lookupWS st.sessions w with
  | some ws => rw [goc_found now avail prov f hl]
  | none =>
    cases avail with
    | false => rw [goc_unavailable now prov f hl]
    | true =>
      cases prov with
      | createFail m => rw [goc_createFail now m f hl]
      | created =>
        cases hw : (runWarmup f DEFAULT_LIBRARIES).1 with
        | ok u =>
          obtain ⟨⟩ := u
          rw [goc_created_ok now hl hw]
        | error m => rw [goc_created_err now hl hw]

theorem goc_next_env_le (st : ManagerState) (w : String) (now : Nat) (avail : Bool)
    (prov : ProvisionOutcome) (f : String → LibStep) :
    st.next_env ≤ (get_or_create_session st w now avail prov f).2.next_env := by
  cases hl : lookupWS st.sessions w with
  | some ws => rw [goc_found now avail prov f hl]
  | none =>
    cases avail with
    | false => rw [goc_unavailable now prov f hl]
    | true =>
      cases prov with
      | createFail m => rw [goc_createFail now m f hl]
      | created =>
        cases hw : (runWarmup f DEFAULT_LIBRARIES).1 with
        | ok u =>
          obtain ⟨⟩ := u
          rw [goc_created_ok now hl hw]
          exact Nat.le_succ _
        | error m =>
          rw [goc_created_err now hl hw]
          exact Nat.le_succ _

theorem goc_fst_bound {st : ManagerState} (h : Inv st) (w : String) (now : Nat)
    (avail : Bool) (prov : ProvisionOutcome) (f : String → LibStep) :
    ∀ e, (get_or_create_session st w now avail prov f).1.session = some e →
      e < (get_or_create_session st w now avail prov f).2.next_env := by
  intro e he
  cases hl : lookupWS st.sessions w with
  | some ws =>
    rw [goc_found now avail prov f hl] at he ⊢
    simp only [touch] at he
    exact h.2 (w, ws) (lookupWS_mem hl) e he
  | none =>
    cases avail with
    | false =>
      rw [goc_unavailable now prov f hl] at he
      simp at he
    | true =>
      cases prov with
      | createFail m =>
        rw [goc_createFail now m f hl] at he
        simp at he
      | created =>
        cases hw : (runWarmup f DEFAULT_LIBRARIES).1 with
        | ok u =>
          obtain ⟨⟩ := u
          rw [goc_created_ok now hl hw] at he
          simp at he
          rw [goc_created_ok now hl hw]
          simp
          omega
        | error m =>
          rw [goc_created_err now hl hw] at he
          simp at he

theorem goc_inv {st : ManagerState} (h : Inv st) (w : String) (now : Nat)
    (avail : Bool) (prov : ProvisionOutcome) (f : String → LibStep) :
    Inv (get_or_create_session st w now avail prov f).2 := by
  constructor
  · rw [goc_sessions_eq]
    exact nodup_keys_insertWS h.1
  · intro q hq e he
    rw [goc_sessions_eq] at hq
    rcases mem_insertWS hq with h1 | h1
    · rw [h1] at he
      exact goc_fst_bound h w now avail prov f e he
    · exact lt_of_lt_of_le (h.2 q h1 e he) (goc_next_env_le st w now avail prov f)

theorem exec_next_env_eq (st : ManagerState) (w c : String) (t now : Nat)
    (avail : Bool) (prov : ProvisionOutcome) (f : String → LibStep)
    (ro : RunOutcome) (fb : SubprocessOutcome) :
    (execute st w c t now avail prov f ro fb).2.next_env =
      (get_or_create_session st w now avail prov f).2.next_env := by
  cases hs : (get_or_create_session st w now avail prov f).1.session with
  | none => rw [execute_handle_none c t now ro fb hs]; cases fb <;> rfl
  | some env => rw [execute_handle_some c t now ro fb hs]; cases ro <;> rfl

theorem exec_inv {st : ManagerState} (h : Inv st) (w c : String) (t now : Nat)
    (avail : Bool) (prov : ProvisionOutcome) (f : String → LibStep)
    (ro : RunOutcome) (fb : SubprocessOutcome) :
    Inv (execute st w c t now avail prov f ro fb).2 := by
  have hg := goc_inv h w now avail prov f
  have hb := goc_fst_bound h w now avail prov f
  cases hs : (get_or_create_session st w now avail prov f).1.session with
  | none => rw [execute_handle_none c t now ro fb hs]; cases fb <;> exact hg
  | some env =>
    rw [execute_handle_some c t now ro fb hs]
    cases ro with
    | exn m => exact hg
    | ok r =>
      constructor
      · exact nodup_keys_insertWS hg.1
      · intro q hq e he
        rcases mem_insertWS hq with h1 | h1
        · rw [h1] at he
          simp only [touch] at he
          exact hb e he
        · exact hg.2 q h1 e he

theorem tick_inv {st : ManagerState} (h : Inv st) (now : Nat) :
    Inv (cleanup_tick st now) := by
  constructor
  · exact nodup_keys_filter _ h.1
  · intro q hq e he
    exact h.2 q (List.mem_of_mem_filter hq) e he

theorem destroy_inv {st : ManagerState} (h : Inv st) (w : String)
    (o : Except String Unit) : Inv (destroy_session st w o).1 := by
  unfold destroy_session
  cases hl : lookupWS st.sessions w with
  | some ws =>
    constructor
    · exact nodup_keys_filter _ h.1
    · intro q hq e he
      exact h.2 q (List.mem_of_mem_filter hq) e he
  | none => exact h

/-- The reachable `SandboxManager` states: everything obtainable from a
fresh manager by any sequence of the module's operations, with arbitrary
clock readings and arbitrary external outcomes.  Each operation is one
atomic transition, matching the asyncio execution of the source: none of
the method bodies contains an `await` that yields to the event loop
(`get_or_create_session` has no `await` at all; `execute` only awaits the
non-yielding `get_or_create_session`), so each runs to completion once
entered. -/
inductive Reachable : ManagerState → Prop where
  | init : Reachable initState
  | start_step {st : ManagerState} : Reachable st → Reachable (start st)
  | goc {st : ManagerState} (w : String) (now : Nat) (avail : Bool)
      (prov : ProvisionOutcome) (f : String → LibStep) :
      Reachable st → Reachable (get_or_create_session st w now avail prov f).2
  | exec {st : ManagerState} (w c : String) (t now : Nat) (avail : Bool)
      (prov : ProvisionOutcome) (f : String → LibStep) (ro : RunOutcome)
      (fb : SubprocessOutcome) :
      Reachable st → Reachable (execute st w c t now avail prov f ro fb).2
  | tick {st : ManagerState} (now : Nat) : Reachable st → Reachable (cleanup_tick st now)
  | destroy {st : ManagerState} (w : String) (o : Except String Unit) :
      Reachable st → Reachable (destroy_session st w o).1
  | stop_step {st : ManagerState} (f : String → Except String Unit) :
      Reachable st → Reachable (stop st f).1

theorem reachable_inv {st : ManagerState} (h : Reachable st) : Inv st := by
  induction h with
  | init => exact ⟨List.nodup_nil, fun q hq => by simp [initState] at hq⟩
  | start_step _ ih => exact ⟨ih.1, fun q hq e he => ih.2 q hq e he⟩
  | goc w now avail prov f _ ih => exact goc_inv ih w now avail prov f
  | exec w c t now avail prov f ro fb _ ih => exact exec_inv ih w c t now avail prov f ro fb
  | tick now _ ih => exact tick_inv ih now
  | destroy w o _ ih => exact destroy_inv ih w o
  | stop_step f _ ih => exact ⟨List.nodup_nil, fun q hq => by simp [stop] at hq⟩

/-! Concrete material shared by the witnesses below. -/

/-- A warm-up oracle in which every library import succeeds. -/
def allImportsOk : String → LibStep := fun _ => LibStep.importOk

/-- A warm-up oracle in which every import fails and the subsequent pip
install attempt fails too. -/
def allInstallsFail : String → LibStep := fun _ => LibStep.importFailInstallFail "pip failed"

/-- A concrete reachable state: one workspace session for `"ws1"`, created
at time 0 with environment identifier 0, fresh counter at 1. -/
def oneSessionState : ManagerState :=
  (get_or_create_session initState "ws1" 0 true ProvisionOutcome.created allImportsOk).2

/-! Helper lemmas for the claim theorems. -/

theorem filter_key_length_le_one {l : List (String × WorkspaceSession)} {w : String}
    (hn : (keys l).Nodup) : (l.filter (fun q => q.1 == w)).length ≤ 1 := by
  induction l with
  | nil => simp
  | cons a t ih =>
    simp only [keys, List.map_cons, List.nodup_cons] at hn
    by_cases hk : a.1 = w
    · have ht : t.filter (fun q => q.1 == w) = [] := by
        apply List.filter_eq_nil_iff.2
        intro q hq
        simp only [beq_iff_eq]
        intro hqw
        apply hn.1
        rw [← hk] at hqw
        rw [← hqw]
        exact List.mem_map_of_mem Prod.fst hq
      rw [List.filter_cons_of_pos (by simp [hk]), ht]
      simp
    · rw [List.filter_cons_of_neg (by simp [hk])]
      exact ih hn.2

theorem runWarmup_no_installFail {f : String → LibStep} :
    ∀ libs : List String, (∀ l ∈ libs, ∀ m, f l ≠ LibStep.importFailInstallFail m) →
      (runWarmup f libs).1 = Except.ok () ∧
      (runWarmup f libs).2 = libs.filter (fun l => f l != LibStep.importOk) := by
  intro libs
  induction libs with
  | nil => intro _; exact ⟨rfl, rfl⟩
  | cons lib rest ih =>
    intro h
    have hrest := ih (fun l hl m => h l (List.mem_cons_of_mem _ hl) m)
    cases hf : f lib with
    | importOk =>
      constructor
      · simp only [runWarmup, hf]
        exact hrest.1
      · simp only [runWarmup, hf]
        rw [List.filter_cons_of_neg (by simp [hf])]
        exact hrest.2
    | importFailInstallOk =>
      constructor
      · simp only [runWarmup, hf]
        exact hrest.1
      · simp only [runWarmup, hf]
        rw [List.filter_cons_of_pos (by simp [hf])]
        rw [hrest.2]
    | importFailInstallFail m => exact absurd hf (h lib (List.mem_cons_self _ _) m)

/-! Claim theorems. -/

/-- Claim C1, counterexample: a provisioning failure routes the call to the
fallback executor, and when the fallback subprocess exits with status 0 the
call reports success — refuting the claim that on every failure path,
provisioning failure included, the result has the success flag false and an
error string in the error-output field. -/
theorem provisioning_failure_can_report_success :
    (execute initState "ws3" "x=1" 60 0 true
      (ProvisionOutcome.createFail "docker daemon unreachable") allImportsOk
      (RunOutcome.exn "unused") (SubprocessOutcome.completed 0 "done" "")).1.success = true := rfl

/-- Claim C1 (amended): `execute` is a total function of the call and of the
external outcomes — no exception propagates and every path returns a fully
populated `ExecutionResult`.  A timeout and a spawn failure on the fallback
path, and a runtime exception on the sandboxed path, each yield
`success = false` with the error text in `stderr`; a provisioning failure
leaves the handle absent, so the call routes to the fallback executor and
the result reflects the fallback outcome (success exactly when the
subprocess exit status is 0), not an unconditional failure. -/
theorem execute_wellformed (st : ManagerState) (w c : String) (t now : Nat)
    (avail : Bool) (prov : ProvisionOutcome) (f : String → LibStep)
    (ro : RunOutcome) (fb : SubprocessOutcome) :
    ((get_or_create_session st w now avail prov f).1.session = none →
      (∀ rc out err, fb = SubprocessOutcome.completed rc out err →
        (execute st w c t now avail prov f ro fb).1 = ⟨rc == 0, out, err, []⟩) ∧
      (fb = SubprocessOutcome.timedOut →
        (execute st w c t now avail prov f ro fb).1 =
          ⟨false, "", "Execution timed out after " ++ toString t ++ " seconds", []⟩) ∧
      (∀ m, fb = SubprocessOutcome.exn m →
        (execute st w c t now avail prov f ro fb).1 = ⟨false, "", m, []⟩)) ∧
    (∀ env, (get_or_create_session st w now avail prov f).1.session = some env →
      (∀ m, ro = RunOutcome.exn m →
        (execute st w c t now avail prov f ro fb).1 = ⟨false, "", m, []⟩) ∧
      (∀ r, ro = RunOutcome.ok r →
        (execute st w c t now avail prov f ro fb).1 =
          ⟨r.exit_code == 0, r.stdout.getD "", r.stderr.getD "",
           (r.images.getD []).map (fun img => ⟨"image", img⟩)⟩)) := by
  constructor
  · intro hs
    refine ⟨?_, ?_, ?_⟩
    · intro rc out err hfb
      subst hfb
      rw [execute_handle_none c t now ro _ hs]
    · intro hfb
      subst hfb
      rw [execute_handle_none c t now ro _ hs]
    · intro m hfb
      subst hfb
      rw [execute_handle_none c t now ro _ hs]
  · intro env hs
    constructor
    · intro m hro
      subst hro
      rw [execute_handle_some c t now _ fb hs]
    · intro r hro
      subst hro
      rw [execute_handle_some c t now _ fb hs]

theorem execute_wellformed_witness :
    (execute initState "ws3" "x=1" 60 0 true (ProvisionOutcome.createFail "no docker")
      allImportsOk (RunOutcome.exn "unused") (SubprocessOutcome.completed 2 "out" "err")).1 =
      ⟨(2 : Int) == 0, "out", "err", []⟩ :=
  ((execute_wellformed initState "ws3" "x=1" 60 0 true (ProvisionOutcome.createFail "no docker")
      allImportsOk (RunOutcome.exn "unused")
      (SubprocessOutcome.completed 2 "out" "err")).1 rfl).1 2 "out" "err" rfl

/-- Claim C4, counterexample: with every import raising and every pip
install attempt raising, the warm-up ends in an error that escapes to the
outer provisioning handler (the install run at manager.py line 134 is not
inside the inner `try`), and the new Session's environment handle is
absent, not present as the claim states. -/
theorem warmup_install_failure_drops_handle :
    (runWarmup allInstallsFail DEFAULT_LIBRARIES).1 = Except.error "pip failed" ∧
    (get_or_create_session initState "ws1" 0 true ProvisionOutcome.created
      allInstallsFail).1.session = none :=
  ⟨rfl, rfl⟩

/-- Claim C4 (amended): the warm-up iterates the fixed library list and
attempts installation exactly for the items whose import-verification
fails; import failures whose installation succeeds do not abort creation —
when no installation attempt fails, the Session is registered with its
environment handle present.  (An installation failure instead escapes to
the outer provisioning handler, leaving the Session registered with its
handle absent, as the counterexample shows.) -/
theorem warmup_amended {st : ManagerState} {w : String} (now : Nat)
    {f : String → LibStep}
    (hfresh : lookupWS st.sessions w = none)
    (hnofail : ∀ l ∈ DEFAULT_LIBRARIES, ∀ m, f l ≠ LibStep.importFailInstallFail m) :
    (get_or_create_session st w now true ProvisionOutcome.created f).1.session =
      some st.next_env ∧
    lookupWS (get_or_create_session st w now true ProvisionOutcome.created f).2.sessions w =
      some (get_or_create_session st w now true ProvisionOutcome.created f).1 ∧
    (runWarmup f DEFAULT_LIBRARIES).2 =
      DEFAULT_LIBRARIES.filter (fun l => f l != LibStep.importOk) := by
  have hw := runWarmup_no_installFail DEFAULT_LIBRARIES hnofail
  rw [goc_created_ok now hfresh hw.1]
  exact ⟨rfl, lookupWS_insertWS_self _ _ _, hw.2⟩

/-- A warm-up oracle in which every import fails but every subsequent pip
install attempt succeeds. -/
def allInstallsSucceed : String → LibStep := fun _ => LibStep.importFailInstallOk

theorem allInstallsSucceed_nofail :
    ∀ l ∈ DEFAULT_LIBRARIES, ∀ m, allInstallsSucceed l ≠ LibStep.importFailInstallFail m :=
  fun _ _ m h => LibStep.noConfusion h

theorem warmup_amended_witness :
    lookupWS initState.sessions "ws1" = none ∧
    (get_or_create_session initState "ws1" 0 true ProvisionOutcome.created
      allInstallsSucceed).1.session = some 0 :=
  ⟨rfl, (warmup_amended 0 (show lookupWS initState.sessions "ws1" = none from rfl)
    allInstallsSucceed_nofail).1⟩

/-- Claim C5: when environment provisioning fails during
`get_or_create_session`, the new Session is still inserted into the
registry with its environment handle absent; and any later call for a
workspace id whose registered record is degraded returns that record
(touched) with the handle still absent and keeps it registered — no
provisioning retry happens, whatever the availability flag, provisioning
outcome and warm-up outcome of the later call would have been. -/
theorem provisioning_failure_degraded_session {st : ManagerState} {w : String}
    (now : Nat) (m : String) (f : String → LibStep)
    (hfresh : lookupWS st.sessions w = none) :
    ((get_or_create_session st w now true (ProvisionOutcome.createFail m) f).1.session = none ∧
     lookupWS (get_or_create_session st w now true (ProvisionOutcome.createFail m) f).2.sessions w =
       some (get_or_create_session st w now true (ProvisionOutcome.createFail m) f).1) ∧
    (∀ st2 : ManagerState, ∀ ws2 : WorkspaceSession,
      lookupWS st2.sessions w = some ws2 → ws2.session = none →
      ∀ now2 avail2 prov2 f2,
        (get_or_create_session st2 w now2 avail2 prov2 f2).1 = touch ws2 now2 ∧
        (get_or_create_session st2 w now2 avail2 prov2 f2).1.session = none ∧
        lookupWS (get_or_create_session st2 w now2 avail2 prov2 f2).2.sessions w =
          some (get_or_create_session st2 w now2 avail2 prov2 f2).1) := by
  constructor
  · rw [goc_createFail now m f hfresh]
    exact ⟨rfl, lookupWS_insertWS_self _ _ _⟩
  · intro st2 ws2 hl2 hdeg now2 avail2 prov2 f2
    rw [goc_found now2 avail2 prov2 f2 hl2]
    exact ⟨rfl, hdeg, lookupWS_insertWS_self _ _ _⟩

theorem provisioning_failure_degraded_session_witness :
    lookupWS initState.sessions "ws1" = none ∧
    (get_or_create_session initState "ws1" 0 true (ProvisionOutcome.createFail "boom")
      allImportsOk).1.session = none :=
  ⟨rfl, ((provisioning_failure_degraded_session 0 "boom" allImportsOk
    (show lookupWS initState.sessions "ws1" = none from rfl)).1).1⟩

/-- Claim C7: `destroy_session` is idempotent and total: on an absent
workspace id it is a no-op returning no error; after any call the id is
absent, so an immediately repeated call is a no-op as well; and when the
Session is present, its record is deleted and the teardown of its handle is
attempted with any teardown error swallowed into the returned log entry,
never surfaced as a fault (the function is total, with no error result). -/
theorem destroy_session_absent {st : ManagerState} {w : String}
    (o : Except String Unit) (h : lookupWS st.sessions w = none) :
    destroy_session st w o = (st, none) := by
  simp [destroy_session, h]

theorem destroy_session_present {st : ManagerState} {w : String}
    {ws : WorkspaceSession} (o : Except String Unit)
    (h : lookupWS st.sessions w = some ws) :
    destroy_session st w o =
      ({ st with sessions := eraseWS st.sessions w }, close_session ws o) := by
  simp [destroy_session, h]

theorem destroy_session_idempotent (st : ManagerState) (w : String)
    (o1 o2 : Except String Unit) :
    (lookupWS st.sessions w = none → destroy_session st w o1 = (st, none)) ∧
    lookupWS (destroy_session st w o1).1.sessions w = none ∧
    destroy_session (destroy_session st w o1).1 w o2 = ((destroy_session st w o1).1, none) ∧
    (∀ ws, lookupWS st.sessions w = some ws →
      (destroy_session st w o1).1.sessions = eraseWS st.sessions w ∧
      ∀ m, o1 = Except.error m → ws.session.isSome = true →
        (destroy_session st w o1).2 = some m) := by
  cases hl : lookupWS st.sessions w with
  | none =>
    have hd := destroy_session_absent o1 hl
    refine ⟨fun _ => hd, ?_, ?_, ?_⟩
    · rw [hd]
      exact hl
    · rw [hd]
      exact destroy_session_absent o2 hl
    · intro ws hws
      exact Option.noConfusion hws
  | some ws =>
    have hd := destroy_session_present o1 hl
    have hnone : lookupWS (destroy_session st w o1).1.sessions w = none := by
      rw [hd]
      exact lookupWS_eraseWS_self _ _
    refine ⟨fun h => Option.noConfusion h, hnone,
      destroy_session_absent o2 hnone, ?_⟩
    intro ws2 hws2
    have hws : ws2 = ws := by
      injection hws2 with h2
      exact h2.symm
    subst hws
    refine ⟨by rw [hd], ?_⟩
    intro m hm hsome
    rw [hd]
    cases hso : ws2.session with
    | none =>
      rw [hso] at hsome
      simp at hsome
    | some e => simp [close_session, hso, hm]

theorem destroy_session_idempotent_witness :
    (destroy_session oneSessionState "ws1" (Except.error "boom")).2 = some "boom" ∧
    destroy_session (destroy_session oneSessionState "ws1" (Except.error "boom")).1 "ws1"
      (Except.ok ()) = ((destroy_session oneSessionState "ws1" (Except.error "boom")).1, none) :=
  ⟨((destroy_session_idempotent oneSessionState "ws1" (Except.error "boom")
      (Except.ok ())).2.2.2 ⟨"ws1", some 0, 0, 0⟩ rfl).2 "boom" rfl rfl,
   (destroy_session_idempotent oneSessionState "ws1" (Except.error "boom")
      (Except.ok ())).2.2.1⟩

/-- Claim C10: calling `get_or_create_session` for a workspace id already
present in the registry returns that record with only `last_used` changed
to the current clock reading: the environment handle, creation timestamp
and workspace id are unchanged, the fresh-environment counter is untouched
(no provisioning or warm-up runs — the statement quantifies over arbitrary
availability, provisioning and warm-up outcomes and the result never
depends on them), and the registry entry of every other workspace id is
unchanged. -/
theorem get_or_create_existing_frame {st : ManagerState} {w : String}
    {ws : WorkspaceSession} (now : Nat) (avail : Bool) (prov : ProvisionOutcome)
    (f : String → LibStep) (hl : lookupWS st.sessions w = some ws) :
    (get_or_create_session st w now avail prov f).1 = { ws with last_used := now } ∧
    (get_or_create_session st w now avail prov f).1.session = ws.session ∧
    (get_or_create_session st w now avail prov f).1.created_at = ws.created_at ∧
    (get_or_create_session st w now avail prov f).1.workspace_id = ws.workspace_id ∧
    (get_or_create_session st w now avail prov f).2.next_env = st.next_env ∧
    lookupWS (get_or_create_session st w now avail prov f).2.sessions w =
      some (get_or_create_session st w now avail prov f).1 ∧
    (∀ w2, w2 ≠ w → lookupWS (get_or_create_session st w now avail prov f).2.sessions w2 =
      lookupWS st.sessions w2) := by
  rw [goc_found now avail prov f hl]
  refine ⟨rfl, rfl, rfl, rfl, rfl, lookupWS_insertWS_self _ _ _, ?_⟩
  intro w2 hw2
  exact lookupWS_insertWS_other _ _ hw2

theorem get_or_create_existing_frame_witness :
    lookupWS oneSessionState.sessions "ws1" = some ⟨"ws1", some 0, 0, 0⟩ ∧
    (get_or_create_session oneSessionState "ws1" 7 true ProvisionOutcome.created
      allImportsOk).1 = ⟨"ws1", some 0, 0, 7⟩ :=
  ⟨rfl, (get_or_create_existing_frame 7 true ProvisionOutcome.created allImportsOk
    (show lookupWS oneSessionState.sessions "ws1" = some ⟨"ws1", some 0, 0, 0⟩ from rfl)).1⟩

/-- Claim C3: in every reachable manager state the registry holds at most
one Session record per workspace id.  Creation is atomic with respect to
the event loop — the body of `get_or_create_session` (manager.py lines
106-142) contains no `await`, so two simultaneous first requests for the
same unseen id run their creation one after the other and the second finds
the entry the first inserted; the reachable-states relation accordingly
ranges over all interleavings of whole operations, and no sequence of
operations ever produces two records (or two environments) for one id. -/
theorem registry_at_most_one_session_per_id {st : ManagerState}
    (h : Reachable st) (w : String) :
    (st.sessions.filter (fun q => q.1 == w)).length ≤ 1 :=
  filter_key_length_le_one (reachable_inv h).1

theorem registry_at_most_one_session_per_id_witness :
    ((oneSessionState.sessions.filter (fun q => q.1 == "ws1")).length ≤ 1) :=
  registry_at_most_one_session_per_id
    (Reachable.goc "ws1" 0 true ProvisionOutcome.created allImportsOk Reachable.init) "ws1"

/-- Claim C6: a registered Session that is expired at the reaper's clock
reading (strictly more than IDLE_TIMEOUT = 1800 seconds since last use;
the reaper wakes every CLEANUP_INTERVAL = 60 seconds) is removed from the
registry by the cleanup tick, and a subsequent request for that workspace
id builds a brand-new Session: freshly provisioned environment identifier
`st.next_env`, distinct from the evicted session's identifier, with both
timestamps set to the request's clock reading — no state survives from
before eviction. -/
theorem expired_session_evicted_fresh_env {st : ManagerState} {w : String}
    {ws : WorkspaceSession} {e : Nat} (now now2 : Nat) {f : String → LibStep}
    (hreach : Reachable st)
    (hlook : lookupWS st.sessions w = some ws)
    (henv : ws.session = some e)
    (hexp : is_expired ws now = true)
    (hwarm : (runWarmup f DEFAULT_LIBRARIES).1 = Except.ok ()) :
    lookupWS (cleanup_tick st now).sessions w = none ∧
    (get_or_create_session (cleanup_tick st now) w now2 true ProvisionOutcome.created f).1 =
      ⟨w, some st.next_env, now2, now2⟩ ∧
    st.next_env ≠ e ∧
    IDLE_TIMEOUT = 1800 ∧ CLEANUP_INTERVAL = 60 := by
  have hinv := reachable_inv hreach
  have hgone : lookupWS (cleanup_tick st now).sessions w = none := by
    apply lookupWS_filter_none _ hinv.1 hlook
    simp [hexp]
  have hne : st.next_env ≠ e := by
    have hb := hinv.2 (w, ws) (lookupWS_mem hlook) e henv
    omega
  refine ⟨hgone, ?_, hne, rfl, rfl⟩
  rw [goc_created_ok now2 hgone hwarm]
  rfl

theorem expired_session_evicted_fresh_env_witness :
    is_expired (⟨"ws1", some 0, 0, 0⟩ : WorkspaceSession) 2000 = true ∧
    lookupWS (cleanup_tick oneSessionState 2000).sessions "ws1" = none ∧
    (get_or_create_session (cleanup_tick oneSessionState 2000) "ws1" 2000 true
      ProvisionOutcome.created allImportsOk).1 = ⟨"ws1", some 1, 2000, 2000⟩ := by
  have h := expired_session_evicted_fresh_env 2000 2000
    (show Reachable oneSessionState from
      Reachable.goc "ws1" 0 true ProvisionOutcome.created allImportsOk Reachable.init)
    (show lookupWS oneSessionState.sessions "ws1" = some ⟨"ws1", some 0, 0, 0⟩ from rfl)
    rfl (by decide)
    (show (runWarmup allImportsOk DEFAULT_LIBRARIES).1 = Except.ok () from rfl)
  exact ⟨by decide, h.1, h.2.1⟩

/-- Claim C8: a timeout expiry is reported as a failure result.  On the
fallback subprocess path, `subprocess.TimeoutExpired` yields exactly
`success = false`, empty stdout, empty artifact list, and the fixed message
naming the exceeded bound in stderr; on the sandboxed path, where the
timeout surfaces as an exception raised by the environment's `run` call,
the result has `success = false` with that exception's text in stderr. -/
theorem timeout_reported_as_failure (st : ManagerState) (w c : String)
    (t now : Nat) (avail : Bool) (prov : ProvisionOutcome) (f : String → LibStep)
    (ro : RunOutcome) (fb : SubprocessOutcome) (m : String) :
    ((get_or_create_session st w now avail prov f).1.session = none →
      (execute st w c t now avail prov f ro SubprocessOutcome.timedOut).1 =
        ⟨false, "", "Execution timed out after " ++ toString t ++ " seconds", []⟩) ∧
    (∀ env, (get_or_create_session st w now avail prov f).1.session = some env →
      (execute st w c t now avail prov f (RunOutcome.exn m) fb).1.success = false ∧
      (execute st w c t now avail prov f (RunOutcome.exn m) fb).1.stderr = m) := by
  constructor
  · intro hs
    rw [execute_handle_none c t now ro SubprocessOutcome.timedOut hs]
  · intro env hs
    rw [execute_handle_some c t now (RunOutcome.exn m) fb hs]
    exact ⟨rfl, rfl⟩

theorem timeout_reported_as_failure_witness :
    (execute initState "ws2" "while True: pass" 1 0 false ProvisionOutcome.created
      allImportsOk (RunOutcome.exn "unused") SubprocessOutcome.timedOut).1 =
      ⟨false, "", "Execution timed out after " ++ toString 1 ++ " seconds", []⟩ :=
  (timeout_reported_as_failure initState "ws2" "while True: pass" 1 0 false
    ProvisionOutcome.created allImportsOk (RunOutcome.exn "unused")
    SubprocessOutcome.timedOut "unused").1 rfl

/-- Claim C9: `stop` is total, so it is safe to call without a prior
successful `start` (the statement quantifies over every state, including
those whose cleanup task was never created); after it the cleanup task is
gone, the teardown path was invoked once per remaining Session (one log
entry per registered session, keyed by its workspace id, teardown errors
swallowed into the log), and the registry is empty. -/
theorem stop_drains_and_clears (st : ManagerState)
    (close_out : String → Except String Unit) :
    (stop st close_out).1.sessions = [] ∧
    (stop st close_out).1.cleanup_task = false ∧
    (stop st close_out).2.length = st.sessions.length ∧
    (∀ q ∈ st.sessions,
      (q.1, close_session q.2 (close_out q.1)) ∈ (stop st close_out).2) := by
  refine ⟨rfl, rfl, List.length_map _ _, ?_⟩
  intro q hq
  exact List.mem_map_of_mem (fun q => (q.1, close_session q.2 (close_out q.1))) hq

theorem stop_drains_and_clears_witness :
    (stop oneSessionState (fun _ => Except.error "boom")).1.sessions = [] ∧
    ("ws1", some "boom") ∈ (stop oneSessionState (fun _ => Except.error "boom")).2 :=
  ⟨(stop_drains_and_clears oneSessionState (fun _ => Except.error "boom")).1,
   (stop_drains_and_clears oneSessionState (fun _ => Except.error "boom")).2.2.2
     ("ws1", ⟨"ws1", some 0, 0, 0⟩) (by decide)⟩

/-! Fine-grained interleaving model for claim C2.

The sequential embedding above treats each operation as one atomic step,
which is accurate for the pieces of `manager.py` that never yield control.
The environment `run` call inside `execute` (manager.py line 194), however,
blocks pending external I/O — the specification's concurrency model lists
code execution among the suspension points and requires correctness under
real parallel threads as well — so here entering and leaving that call are
separate transitions on one workspace's session.  The reaper transition
below guards on exactly what `_cleanup_loop` checks (manager.py lines
88-96): `is_expired`, and nothing else — the source has no per-session
exclusion primitive, so nothing stops eviction while a run is in flight. -/

/-- State of one workspace's session for the race analysis: whether its
registry entry is present, whether its environment handle is still open,
its `last_used` stamp, how many `execute` calls are currently inside the
environment's `run`, and the clock. -/
structure RaceState where
  present : Bool
  env_open : Bool
  last_used : Nat
  running : Nat
  now : Nat
  deriving Repr, DecidableEq

/-- Interleaved transitions of `execute` (manager.py lines 151-205), the
reaper tick (lines 88-96) and the clock, for a single workspace id. -/
inductive RaceStep : RaceState → RaceState → Prop where
  | advance (s : RaceState) (d : Nat) :
      RaceStep s ⟨s.present, s.env_open, s.last_used, s.running, s.now + d⟩
  | begin_run (s : RaceState) (h1 : s.present = true) (h2 : s.env_open = true) :
      RaceStep s ⟨s.present, s.env_open, s.now, s.running + 1, s.now⟩
  | finish_run (s : RaceState) (h : 0 < s.running) :
      RaceStep s ⟨s.present, s.env_open, s.now, s.running - 1, s.now⟩
  | reaper_evict (s : RaceState) (hp : s.present = true)
      (hexp : s.now - s.last_used > IDLE_TIMEOUT) :
      RaceStep s ⟨false, false, s.last_used, s.running, s.now⟩

/-- Race states reachable from a freshly created session at time 0. -/
inductive RaceReachable : RaceState → Prop where
  | init : RaceReachable ⟨true, true, 0, 0, 0⟩
  | step {s u : RaceState} : RaceReachable s → RaceStep s u → RaceReachable u

/-- Claim C2 fails on the source: because `_cleanup_loop` guards eviction
only on `is_expired` and the source has no per-session exclusion
primitive, a reachable interleaving exists in which the reaper closes and
deregisters the session's environment while an `execute` call is still
inside the environment's `run` — eviction running concurrently with an
in-flight execution, which the claim says never happens.  (Trace: an
execution enters `run` at time 0, the run blocks for 1801 s, the reaper
tick finds `now - last_used > IDLE_TIMEOUT` and tears the session down
while the run is still in flight.) -/
theorem eviction_races_inflight_execution :
    ∃ s : RaceState, RaceReachable s ∧ 0 < s.running ∧ s.env_open = false := by
  refine ⟨⟨false, false, 0, 1, 1801⟩, ?_, Nat.zero_lt_one, rfl⟩
  have h0 : RaceReachable ⟨true, true, 0, 0, 0⟩ := RaceReachable.init
  have h1 : RaceReachable ⟨true, true, 0, 1, 0⟩ :=
    RaceReachable.step h0 (RaceStep.begin_run _ rfl rfl)
  have h2 : RaceReachable ⟨true, true, 0, 1, 1801⟩ :=
    RaceReachable.step h1 (RaceStep.advance _ 1801)
  exact RaceReachable.step h2 (RaceStep.reaper_evict _ rfl (by decide))

end Sandbox
